import Mathlib

/-!
Verification of the Cozy Comfort supply-chain service layer (web_server.py).

The service layer issues parameterized SQL against five tables; here the
tables are embedded as Lean lists of records and each SQL statement as the
corresponding list transformation:

  - SELECT ... LIMIT/fetchone              -> List.find?
  - UPDATE ... WHERE <cond>                -> List.map with a conditional update
    (the WHERE clauses are translated verbatim; in particular the inventory
    decrements filter only by product_id and owner_id, as in the source)
  - INSERT ... ON DUPLICATE KEY UPDATE     -> upsertInventory
  - SELECT COALESCE(SUM(quantity),0) ...   -> totalStock (sum over a filter)
  - rollback on a failed precondition      -> Except.error (no state escapes)
  - MySQL rowcount of an UPDATE            -> length of the list of rows the
    statement actually changes (mysql-connector reports affected rows)

Quantities are Int (MySQL INT, no CHECK constraint, so negative values are
representable).  Monetary values arrive as parsed JSON numbers; they are
modelled as Rat here, which is exact; the source actually accumulates them
in binary floating point, a discrepancy treated separately.
-/

set_option maxHeartbeats 1000000

namespace CozyComfort

/-- Owner role tag of an inventory row (ENUM in the schema). -/
inductive OwnerType where
  | manufacturer
  | distributor
  | seller
deriving DecidableEq

/-- One row of the inventory table: a quantity counter keyed by
(product_id, owner_id, owner_type). -/
structure InventoryRecord where
  product_id : Nat
  owner_id : Nat
  owner_type : OwnerType
  quantity : Int
deriving DecidableEq

/-- One row of the distributor_sellers assignment table. -/
structure DistributorSeller where
  distributor_id : Nat
  seller_id : Nat
deriving DecidableEq

/-- The part of a products row the service layer reads (id and name). -/
structure Product where
  id : Nat
  name : String
deriving DecidableEq

/-- A requested line item of a customer order, as posted in the JSON body. -/
structure OrderItemReq where
  product_id : Nat
  quantity : Int
  price : Rat
deriving DecidableEq

/-- One row of the orders table (fields the service layer touches). -/
structure OrderRow where
  id : Nat
  order_number : String
  seller_id : Nat
  distributor_id : Nat
  customer_name : String
  customer_email : String
  total_amount : Rat
  status : String
  confirmed_by_id : Option Nat
deriving DecidableEq

/-- One row of the order_items table. -/
structure OrderItemRow where
  order_id : Nat
  product_id : Nat
  quantity : Int
  unit_price : Rat
deriving DecidableEq

/-- INSERT INTO inventory ... ON DUPLICATE KEY UPDATE quantity = quantity + VALUES(quantity).
The duplicate key is the unique (product_id, owner_id, owner_type) triple. -/
def upsertInventory (inv : List InventoryRecord) (pid oid : Nat) (ot : OwnerType)
    (q : Int) : List InventoryRecord :=
  if inv.any (fun r => r.product_id == pid && r.owner_id == oid && r.owner_type == ot) then
    inv.map (fun r =>
      if r.product_id == pid && r.owner_id == oid && r.owner_type == ot then
        { r with quantity := r.quantity + q }
      else r)
  else
    inv ++ [⟨pid, oid, ot, q⟩]

/-- DistributorService.order_from_manufacturer: SELECT the first manufacturer
inventory row for the product; if missing or short, roll back with an error;
otherwise UPDATE inventory SET quantity = quantity - q WHERE product_id = pid
AND owner_id = that row's owner (note: no owner_type filter, as in the source)
and upsert the transferred quantity into the caller's distributor row. -/
def order_from_manufacturer (inv : List InventoryRecord) (product_id : Nat)
    (quantity : Int) (user_id : Nat) : Except String (List InventoryRecord) :=
  match inv.find? (fun r => r.product_id == product_id &&
      r.owner_type == OwnerType.manufacturer) with
  | none => .error "Insufficient manufacturer stock."
  | some mfg =>
    if mfg.quantity < quantity then
      .error "Insufficient manufacturer stock."
    else
      let inv1 := inv.map (fun r =>
        if r.product_id == product_id && r.owner_id == mfg.owner_id then
          { r with quantity := r.quantity - quantity }
        else r)
      .ok (upsertInventory inv1 product_id user_id OwnerType.distributor quantity)

/-- SellerService.order_from_distributor: resolve the assigned distributor,
SELECT its inventory row for the product; if missing or short, roll back;
otherwise decrement WHERE product_id = pid AND owner_id = distributor_id
(no owner_type filter, as in the source) and upsert into the seller's row. -/
def order_from_distributor (assigns : List DistributorSeller)
    (inv : List InventoryRecord) (user_id product_id : Nat) (quantity : Int) :
    Except String (List InventoryRecord) :=
  match assigns.find? (fun a => a.seller_id == user_id) with
  | none => .error "You are not assigned to a distributor."
  | some a =>
    match inv.find? (fun r => r.product_id == product_id &&
        r.owner_id == a.distributor_id && r.owner_type == OwnerType.distributor) with
    | none => .error "Insufficient distributor stock."
    | some d =>
      if d.quantity < quantity then
        .error "Insufficient distributor stock."
      else
        let inv1 := inv.map (fun r =>
          if r.product_id == product_id && r.owner_id == a.distributor_id then
            { r with quantity := r.quantity - quantity }
          else r)
        .ok (upsertInventory inv1 product_id user_id OwnerType.seller quantity)

/-- The stock-availability query of SellerService.create_order:
SELECT COALESCE(SUM(quantity), 0) FROM inventory WHERE product_id = pid AND
((owner_id = seller AND owner_type = seller) OR
 (owner_id = distributor AND owner_type = distributor)). -/
def totalStock (inv : List InventoryRecord) (user_id distributor_id pid : Nat) : Int :=
  ((inv.filter (fun r => r.product_id == pid &&
      ((r.owner_id == user_id && r.owner_type == OwnerType.seller) ||
       (r.owner_id == distributor_id && r.owner_type == OwnerType.distributor)))).map
    (fun r => r.quantity)).sum

/-- The validation loop of SellerService.create_order: for each item, look up
the product name (a missing product makes the request fail with no mutation,
since the transaction is never committed) and abort if the combined
seller-plus-distributor stock is below the requested quantity. -/
def validateItems (inv : List InventoryRecord) (products : List Product)
    (user_id distributor_id : Nat) : List OrderItemReq → Except String Unit
  | [] => .ok ()
  | item :: rest =>
    match products.find? (fun p => p.id == item.product_id) with
    | none => .error "Product lookup failed."
    | some p =>
      if totalStock inv user_id distributor_id item.product_id < item.quantity then
        .error ("Out of stock for " ++ p.name ++ ".")
      else
        validateItems inv products user_id distributor_id rest

/-- The total_amount accumulation of SellerService.create_order:
the sum over all posted items of quantity times price (no filtering). -/
def totalAmount (items : List OrderItemReq) : Rat :=
  (items.map (fun i => (i.quantity : Rat) * i.price)).sum

/-- The per-item deduction step of SellerService.create_order: read the first
inventory row WHERE product_id = pid AND owner_id = seller (no owner_type
filter), deduct min(requested, seller stock) from the seller rows if positive,
then deduct any positive remainder from the rows WHERE product_id = pid AND
owner_id = distributor (again no owner_type filter and no existence check). -/
def deductItem (inv : List InventoryRecord) (user_id distributor_id : Nat)
    (item : OrderItemReq) : List InventoryRecord :=
  let seller_stock :=
    match inv.find? (fun r => r.product_id == item.product_id &&
        r.owner_id == user_id) with
    | some r => r.quantity
    | none => 0
  let deduct_from_seller := min item.quantity seller_stock
  let inv1 :=
    if deduct_from_seller > 0 then
      inv.map (fun r =>
        if r.product_id == item.product_id && r.owner_id == user_id then
          { r with quantity := r.quantity - deduct_from_seller }
        else r)
    else inv
  let qty_to_deduct :=
    if deduct_from_seller > 0 then item.quantity - deduct_from_seller
    else item.quantity
  if qty_to_deduct > 0 then
    inv1.map (fun r =>
      if r.product_id == item.product_id && r.owner_id == distributor_id then
        { r with quantity := r.quantity - qty_to_deduct }
      else r)
  else inv1

/-- The data committed by a successful SellerService.create_order call. -/
structure CreateOrderSuccess where
  inventory : List InventoryRecord
  order : OrderRow
  order_items : List OrderItemRow
deriving DecidableEq

/-- SellerService.create_order, executed inside one transaction: resolve the
assigned distributor, validate stock for every item, then deduct item by item
and insert the orders row (status defaults to pending, no confirmer) and one
order_items row per posted item.  The generated order number and the
auto-increment order id are passed in as parameters since they come from the
clock and the store. -/
def create_order (inv : List InventoryRecord) (products : List Product)
    (assigns : List DistributorSeller) (user_id : Nat)
    (customer_name customer_email : String) (items : List OrderItemReq)
    (order_number : String) (order_id : Nat) : Except String CreateOrderSuccess :=
  match assigns.find? (fun a => a.seller_id == user_id) with
  | none => .error "You are not assigned to a distributor."
  | some a =>
    match validateItems inv products user_id a.distributor_id items with
    | .error e => .error e
    | .ok _ =>
      let inv2 := items.foldl (fun s i => deductItem s user_id a.distributor_id i) inv
      .ok { inventory := inv2,
            order := { id := order_id, order_number := order_number,
                       seller_id := user_id, distributor_id := a.distributor_id,
                       customer_name := customer_name,
                       customer_email := customer_email,
                       total_amount := totalAmount items,
                       status := "pending", confirmed_by_id := none },
            order_items := items.map (fun i =>
              { order_id := order_id, product_id := i.product_id,
                quantity := i.quantity, unit_price := i.price }) }

/-- The persistent store as seen by the order workflow. -/
structure Store where
  inventory : List InventoryRecord
  orders : List OrderRow
  order_items : List OrderItemRow
deriving DecidableEq

/-- Committed effect of order_from_manufacturer: the new inventory on commit,
the old inventory on rollback, with a success flag. -/
def runOFM (inv : List InventoryRecord) (pid : Nat) (q : Int) (uid : Nat) :
    List InventoryRecord × Bool :=
  match order_from_manufacturer inv pid q uid with
  | .ok inv2 => (inv2, true)
  | .error _ => (inv, false)

/-- Committed effect of order_from_distributor. -/
def runOFD (assigns : List DistributorSeller) (inv : List InventoryRecord)
    (uid pid : Nat) (q : Int) : List InventoryRecord × Bool :=
  match order_from_distributor assigns inv uid pid q with
  | .ok inv2 => (inv2, true)
  | .error _ => (inv, false)

/-- Committed effect of create_order on the whole store: on success the new
inventory plus the appended orders and order_items rows, on failure the store
is rolled back unchanged. -/
def runCreateOrder (st : Store) (products : List Product)
    (assigns : List DistributorSeller) (user_id : Nat)
    (customer_name customer_email : String) (items : List OrderItemReq)
    (order_number : String) (order_id : Nat) : Store × Bool :=
  match create_order st.inventory products assigns user_id customer_name
      customer_email items order_number order_id with
  | .ok res => ({ inventory := res.inventory,
                  orders := st.orders ++ [res.order],
                  order_items := st.order_items ++ res.order_items }, true)
  | .error _ => (st, false)

/-- OrderService.update_status at the SQL level: the confirmed transition is
UPDATE orders SET status, confirmed_by_id WHERE id = oid AND status = pending;
any other target is UPDATE orders SET status WHERE id = oid.  The returned
count is the MySQL affected-rows count: the rows the statement actually
changed (for the conditional confirm every matched row changes, since its
status goes from pending to confirmed). -/
def update_status (orders : List OrderRow) (order_id : Nat) (status : String)
    (user_id : Nat) : List OrderRow × Nat :=
  if status == "confirmed" then
    (orders.map (fun o =>
        if o.id == order_id && o.status == "pending" then
          { o with status := status, confirmed_by_id := some user_id }
        else o),
     (orders.filter (fun o => o.id == order_id && o.status == "pending")).length)
  else
    (orders.map (fun o => if o.id == order_id then { o with status := status } else o),
     (orders.filter (fun o => o.id == order_id && o.status != status)).length)

/-- OrderService.update_status as the route sees it: the UPDATE is committed,
then a zero rowcount is reported as the 404 error message, otherwise success. -/
def update_status_response (orders : List OrderRow) (order_id : Nat)
    (status : String) (user_id : Nat) : List OrderRow × Except String String :=
  let res := update_status orders order_id status user_id
  (res.1,
   if res.2 == 0 then .error "Order not found or status cannot be updated."
   else .ok ("Order status updated to " ++ status ++ "."))

/-- Which role-scoped dashboard payload a request produces (the payloads
themselves are read-only aggregations over the store and are abstracted to
their dispatch tag here; the claim under study concerns only the dispatch). -/
inductive DashboardData where
  | manufacturer (user_id : Nat)
  | distributor (user_id : Nat)
  | seller (user_id : Nat)
deriving DecidableEq

/-- The get_dashboard route: three if statements keyed on the X-User-Type
header string, with no else branch, so an unrecognized role string falls
through and the handler returns no value (Python None). -/
def get_dashboard (user_id : Nat) (user_type : String) : Option DashboardData :=
  if user_type == "manufacturer" then some (.manufacturer user_id)
  else if user_type == "distributor" then some (.distributor user_id)
  else if user_type == "seller" then some (.seller user_id)
  else none

/-- Sum of the quantities of all inventory records of one product, the
quantity conserved by the ledger transfers. -/
def productTotal (inv : List InventoryRecord) (pid : Nat) : Int :=
  ((inv.filter (fun r => r.product_id == pid)).map (fun r => r.quantity)).sum

/-- Quantity held under the (product, owner) key: the first matching record's
quantity, or 0 when there is none (the read used by the deduction pass). -/
def qtyKey (inv : List InventoryRecord) (pid oid : Nat) : Int :=
  match inv.find? (fun r => r.product_id == pid && r.owner_id == oid) with
  | some r => r.quantity
  | none => 0

/-! General list lemmas used across the claims. -/

lemma countP_eq_one_of_key {α β : Type} (l : List α) (k : α → β) (p : α → Bool)
    (hnd : (l.map k).Nodup)
    (hk : ∀ x y, p x = true → p y = true → k x = k y)
    (hex : ∃ a ∈ l, p a = true) :
    l.countP p = 1 := by
  induction l with
  | nil => rcases hex with ⟨a, ha, _⟩; cases ha
  | cons a t ih =>
    rw [List.map_cons, List.nodup_cons] at hnd
    by_cases hpa : p a = true
    · have ht : t.countP p = 0 := by
        rw [List.countP_eq_zero]
        intro b hb hpb
        have hmem : k b ∈ t.map k := List.mem_map_of_mem k hb
        rw [hk b a hpb hpa] at hmem
        exact hnd.1 hmem
      rw [List.countP_cons_of_pos _ _ hpa, ht]
    · rw [List.countP_cons_of_neg _ _ hpa]
      apply ih hnd.2
      rcases hex with ⟨c, hc, hpc⟩
      rcases List.mem_cons.mp hc with hc | hc
      · exact absurd (hc ▸ hpc) hpa
      · exact ⟨c, hc, hpc⟩

lemma find?_unique_of_key {α β : Type} {l : List α} {k : α → β} {p : α → Bool} {a b : α}
    (hnd : (l.map k).Nodup)
    (hk : ∀ x y, p x = true → p y = true → k x = k y)
    (hfind : l.find? p = some a) (hb : b ∈ l) (hpb : p b = true) : b = a :=
  List.inj_on_of_nodup_map hnd hb (List.mem_of_find?_eq_some hfind)
    (hk b a hpb (List.find?_some hfind))

lemma map_eq_self_of {α : Type} (l : List α) (f : α → α) (h : ∀ a ∈ l, f a = a) :
    l.map f = l :=
  (List.map_congr_left h).trans (List.map_id l)

lemma filter_map_eq_of {α : Type} (l : List α) (g : α → α) (P : α → Bool)
    (h1 : ∀ a, P (g a) = P a) (h2 : ∀ a, P a = true → g a = a) :
    (l.map g).filter P = l.filter P := by
  induction l with
  | nil => rfl
  | cons a t ih =>
    by_cases hpa : P a = true
    · rw [List.map_cons, List.filter_cons, List.filter_cons]
      simp only [h1 a, hpa, if_true, h2 a hpa, ih]
    · rw [List.map_cons, List.filter_cons, List.filter_cons]
      simp only [h1 a, hpa, if_false, ih]
      simp [Bool.not_eq_true] at hpa
      simp [hpa, ih]

/-! Claim C10: unrecognized dashboard role. -/

/-- C10: a GetDashboard request whose X-User-Type header is not exactly
manufacturer, distributor or seller falls through all three role branches of
get_dashboard and produces no response value at all (Python None). -/
theorem c10_unknown_role_returns_none (uid : Nat) (t : String)
    (h1 : t ≠ "manufacturer") (h2 : t ≠ "distributor") (h3 : t ≠ "seller") :
    get_dashboard uid t = none := by
  simp [get_dashboard, h1, h2, h3]

theorem c10_unknown_role_returns_none_witness : get_dashboard 7 "admin" = none :=
  c10_unknown_role_returns_none 7 "admin" (by decide) (by decide) (by decide)

/-! Claim C4: insufficient transfer source aborts with no mutation. -/

/-- C4: when the source inventory record of a transfer is missing or holds
less than the requested quantity, order_from_manufacturer and
order_from_distributor both return the InsufficientStock error and commit
nothing: the committed inventory is exactly the initial one. -/
theorem c4_insufficient_source_aborts (inv : List InventoryRecord) (pid : Nat)
    (q : Int) (uid sid did : Nat) (assigns : List DistributorSeller)
    (h1 : ∀ r ∈ inv, r.product_id = pid → r.owner_type = OwnerType.manufacturer →
      r.quantity < q)
    (ha : assigns.find? (fun a => a.seller_id == sid) = some ⟨did, sid⟩)
    (h2 : ∀ r ∈ inv, r.product_id = pid → r.owner_id = did →
      r.owner_type = OwnerType.distributor → r.quantity < q) :
    order_from_manufacturer inv pid q uid = .error "Insufficient manufacturer stock." ∧
    runOFM inv pid q uid = (inv, false) ∧
    order_from_distributor assigns inv sid pid q = .error "Insufficient distributor stock." ∧
    runOFD assigns inv sid pid q = (inv, false) := by
  have hm : order_from_manufacturer inv pid q uid =
      .error "Insufficient manufacturer stock." := by
    unfold order_from_manufacturer
    cases hfind : inv.find? (fun r => r.product_id == pid &&
        r.owner_type == OwnerType.manufacturer) with
    | none => rfl
    | some mfg =>
      have hmem := List.mem_of_find?_eq_some hfind
      have hp := List.find?_some hfind
      simp only [Bool.and_eq_true, beq_iff_eq] at hp
      have hlt := h1 mfg hmem hp.1 hp.2
      simp [hlt]
  have hd : order_from_distributor assigns inv sid pid q =
      .error "Insufficient distributor stock." := by
    unfold order_from_distributor
    simp only [ha]
    cases hfind : inv.find? (fun r => r.product_id == pid &&
        r.owner_id == did && r.owner_type == OwnerType.distributor) with
    | none => simp only [hfind]
    | some d =>
      have hmem := List.mem_of_find?_eq_some hfind
      have hp := List.find?_some hfind
      simp only [Bool.and_eq_true, beq_iff_eq] at hp
      have hlt := h2 d hmem hp.1.1 hp.1.2 hp.2
      simp only [hfind, if_pos hlt]
  exact ⟨hm, by simp [runOFM, hm], hd, by simp [runOFD, hd]⟩

theorem c4_insufficient_source_aborts_witness :
    order_from_manufacturer [⟨1, 1, OwnerType.manufacturer, 3⟩,
        ⟨1, 2, OwnerType.distributor, 3⟩] 1 5 2 =
      .error "Insufficient manufacturer stock." ∧
    runOFM [⟨1, 1, OwnerType.manufacturer, 3⟩, ⟨1, 2, OwnerType.distributor, 3⟩] 1 5 2 =
      ([⟨1, 1, OwnerType.manufacturer, 3⟩, ⟨1, 2, OwnerType.distributor, 3⟩], false) ∧
    order_from_distributor [⟨2, 4⟩] [⟨1, 1, OwnerType.manufacturer, 3⟩,
        ⟨1, 2, OwnerType.distributor, 3⟩] 4 1 5 =
      .error "Insufficient distributor stock." ∧
    runOFD [⟨2, 4⟩] [⟨1, 1, OwnerType.manufacturer, 3⟩, ⟨1, 2, OwnerType.distributor, 3⟩] 4 1 5 =
      ([⟨1, 1, OwnerType.manufacturer, 3⟩, ⟨1, 2, OwnerType.distributor, 3⟩], false) :=
  c4_insufficient_source_aborts _ 1 5 2 4 2 _ (by decide) (by decide) (by decide)

/-! Claim C9: zero affected rows always surfaces as an error. -/

/-- C9: any UpdateOrderStatus call that changes zero rows returns the
order-not-found error, never a success: in particular when no order has the
given id, and when every order with that id already carries the target
status (the no-op update). -/
theorem c9_zero_rows_is_error (orders : List OrderRow) (oid uid : Nat) (s : String) :
    ((∀ o ∈ orders, o.id ≠ oid) →
      (update_status_response orders oid s uid).2 =
        Except.error "Order not found or status cannot be updated.") ∧
    ((∀ o ∈ orders, o.id = oid → o.status = s) →
      (update_status_response orders oid s uid).2 =
        Except.error "Order not found or status cannot be updated.") := by
  constructor
  · intro h
    by_cases hs : s = "confirmed"
    · subst hs
      have hnil : orders.filter (fun o => o.id == oid && o.status == "pending") = [] := by
        rw [List.filter_eq_nil_iff]
        intro o ho
        simp [beq_iff_eq, h o ho]
      simp [update_status_response, update_status, hnil]
    · have hnil : orders.filter (fun o => o.id == oid && o.status != s) = [] := by
        rw [List.filter_eq_nil_iff]
        intro o ho
        simp [beq_iff_eq, h o ho]
      simp [update_status_response, update_status, hs, hnil]
  · intro h
    by_cases hs : s = "confirmed"
    · subst hs
      have hnil : orders.filter (fun o => o.id == oid && o.status == "pending") = [] := by
        rw [List.filter_eq_nil_iff]
        intro o ho
        by_cases hid : o.id = oid
        · have := h o ho hid
          simp [beq_iff_eq, this]
        · simp [beq_iff_eq, hid]
      simp [update_status_response, update_status, hnil]
    · have hnil : orders.filter (fun o => o.id == oid && o.status != s) = [] := by
        rw [List.filter_eq_nil_iff]
        intro o ho
        by_cases hid : o.id = oid
        · have := h o ho hid
          simp [beq_iff_eq, bne_iff_ne, this]
        · simp [beq_iff_eq, hid]
      simp [update_status_response, update_status, hs, hnil]

theorem c9_zero_rows_is_error_witness :
    (update_status_response [⟨1, "n", 4, 2, "c", "e", 10, "shipped", none⟩] 1
        "shipped" 9).2 =
      Except.error "Order not found or status cannot be updated." :=
  (c9_zero_rows_is_error [⟨1, "n", 4, 2, "c", "e", 10, "shipped", none⟩] 1 9
    "shipped").2 (by decide)

/-! Claim C8: the confirmed transition is a compare-and-set. -/

/-- C8: UpdateOrderStatus with target confirmed succeeds if and only if some
order row has the given id and is currently pending; on that transition the
row gets status confirmed and the confirming user recorded; when no pending
row matches, zero rows change and the call returns the error; any target
other than confirmed is applied unconditionally to the rows with the given
id, and never touches the attribution field. -/
theorem c8_confirm_compare_and_set (orders : List OrderRow) (oid uid : Nat)
    (s : String) :
    ((update_status_response orders oid "confirmed" uid).2.isOk = true ↔
      ∃ o ∈ orders, o.id = oid ∧ o.status = "pending") ∧
    (∀ o ∈ orders, o.id = oid → o.status = "pending" →
      { o with status := "confirmed", confirmed_by_id := some uid } ∈
        (update_status_response orders oid "confirmed" uid).1) ∧
    ((∀ o ∈ orders, o.id = oid → o.status ≠ "pending") →
      (update_status_response orders oid "confirmed" uid).1 = orders ∧
      (update_status_response orders oid "confirmed" uid).2 =
        Except.error "Order not found or status cannot be updated.") ∧
    (s ≠ "confirmed" → ∀ o ∈ orders,
      (o.id = oid → { o with status := s } ∈ (update_status_response orders oid s uid).1) ∧
      (o.id ≠ oid → o ∈ (update_status_response orders oid s uid).1)) := by
  refine ⟨?_, ?_, ?_, ?_⟩
  · constructor
    · intro hok
      by_contra hno
      push_neg at hno
      have hnil : orders.filter (fun o => o.id == oid && o.status == "pending") = [] := by
        rw [List.filter_eq_nil_iff]
        intro o ho
        by_cases hid : o.id = oid
        · simp [beq_iff_eq, hno o ho hid]
        · simp [beq_iff_eq, hid]
      simp [update_status_response, update_status, hnil, Except.isOk, Except.toBool] at hok
    · rintro ⟨o, ho, hid, hst⟩
      have hmemf : o ∈ orders.filter (fun o => o.id == oid && o.status == "pending") := by
        rw [List.mem_filter]
        exact ⟨ho, by simp [beq_iff_eq, hid, hst]⟩
      have hlen : (orders.filter (fun o => o.id == oid && o.status == "pending")).length ≠ 0 := by
        intro hzero
        rw [List.length_eq_zero] at hzero
        rw [hzero] at hmemf
        cases hmemf
      simp [update_status_response, update_status, hlen, Except.isOk, Except.toBool]
  · intro o ho hid hst
    have : (update_status_response orders oid "confirmed" uid).1 =
        orders.map (fun o => if o.id == oid && o.status == "pending" then
          { o with status := "confirmed", confirmed_by_id := some uid } else o) := by
      simp [update_status_response, update_status]
    rw [this]
    have hcond : (o.id == oid && o.status == "pending") = true := by
      simp [beq_iff_eq, hid, hst]
    have himg : { o with status := "confirmed", confirmed_by_id := some uid } =
        (fun o => if o.id == oid && o.status == "pending" then
          { o with status := "confirmed", confirmed_by_id := some uid } else o) o := by
      simp [hcond]
    rw [himg]
    exact List.mem_map_of_mem _ ho
  · intro h
    have hnil : orders.filter (fun o => o.id == oid && o.status == "pending") = [] := by
      rw [List.filter_eq_nil_iff]
      intro o ho
      by_cases hid : o.id = oid
      · simp [beq_iff_eq, hid, h o ho hid]
      · simp [beq_iff_eq, hid]
    constructor
    · have hmap : ∀ o ∈ orders, (if o.id == oid && o.status == "pending" then
          { o with status := "confirmed", confirmed_by_id := some uid } else o) = o := by
        intro o ho
        by_cases hid : o.id = oid
        · simp [beq_iff_eq, hid, h o ho hid]
        · simp [beq_iff_eq, hid]
      have h1 : (update_status_response orders oid "confirmed" uid).1 =
          orders.map (fun o => if o.id == oid && o.status == "pending" then
            { o with status := "confirmed", confirmed_by_id := some uid } else o) := by
        simp [update_status_response, update_status]
      rw [h1]
      exact map_eq_self_of orders _ hmap
    · simp [update_status_response, update_status, hnil]
  · intro hs o ho
    have hbranch : (update_status_response orders oid s uid).1 =
        orders.map (fun o => if o.id == oid then { o with status := s } else o) := by
      have : (s == "confirmed") = false := by simp [hs]
      simp [update_status_response, update_status, this]
    constructor
    · intro hid
      rw [hbranch]
      have himg : { o with status := s } =
          (fun o => if o.id == oid then { o with status := s } else o) o := by
        simp [beq_iff_eq, hid]
      rw [himg]
      exact List.mem_map_of_mem _ ho
    · intro hid
      rw [hbranch]
      have himg : o = (fun o => if o.id == oid then { o with status := s } else o) o := by
        simp [beq_iff_eq, hid]
      rw [himg]
      exact List.mem_map_of_mem _ ho

theorem c8_confirm_compare_and_set_witness :
    (update_status_response [⟨1, "n", 4, 2, "c", "e", 10, "pending", none⟩] 1
        "confirmed" 9).2.isOk = true :=
  (c8_confirm_compare_and_set [⟨1, "n", 4, 2, "c", "e", 10, "pending", none⟩] 1 9
    "shipped").1.mpr ⟨⟨1, "n", 4, 2, "c", "e", 10, "pending", none⟩, by decide⟩

/-! Lemmas about the create_order validation pass. -/

lemma validateItems_error_of_insufficient (inv : List InventoryRecord)
    (products : List Product) (uid did : Nat) :
    ∀ items : List OrderItemReq,
      (∀ i ∈ items, (products.find? (fun p => p.id == i.product_id)).isSome = true) →
      (∃ i ∈ items, totalStock inv uid did i.product_id < i.quantity) →
      ∃ msg, validateItems inv products uid did items = .error msg := by
  intro items
  induction items with
  | nil =>
    rintro _ ⟨i, hi, _⟩
    cases hi
  | cons a t ih =>
    intro hprod hex
    obtain ⟨p, hp⟩ := Option.isSome_iff_exists.mp (hprod a (List.mem_cons_self a t))
    by_cases hfail : totalStock inv uid did a.product_id < a.quantity
    · exact ⟨"Out of stock for " ++ p.name ++ ".", by simp [validateItems, hp, hfail]⟩
    · have hex2 : ∃ i ∈ t, totalStock inv uid did i.product_id < i.quantity := by
        rcases hex with ⟨i, hi, hins⟩
        rcases List.mem_cons.mp hi with h | h
        · exact absurd (h ▸ hins) hfail
        · exact ⟨i, h, hins⟩
      obtain ⟨msg, hmsg⟩ := ih (fun i hi => hprod i (List.mem_cons_of_mem a hi)) hex2
      exact ⟨msg, by simp [validateItems, hp, hfail, hmsg]⟩

lemma totalStock_nonneg (inv : List InventoryRecord) (uid did pid : Nat)
    (h : ∀ r ∈ inv, 0 ≤ r.quantity) : 0 ≤ totalStock inv uid did pid := by
  unfold totalStock
  apply List.sum_nonneg
  intro x hx
  rcases List.mem_map.mp hx with ⟨r, hr, rfl⟩
  exact h r (List.mem_filter.mp hr).1

lemma validateItems_ok_of_le (inv : List InventoryRecord) (products : List Product)
    (uid did : Nat) :
    ∀ items : List OrderItemReq,
      (∀ i ∈ items, (products.find? (fun p => p.id == i.product_id)).isSome = true) →
      (∀ i ∈ items, i.quantity ≤ totalStock inv uid did i.product_id) →
      validateItems inv products uid did items = .ok () := by
  intro items
  induction items with
  | nil => intro _ _; rfl
  | cons a t ih =>
    intro hprod hle
    obtain ⟨p, hp⟩ := Option.isSome_iff_exists.mp (hprod a (List.mem_cons_self a t))
    have hnot : ¬ totalStock inv uid did a.product_id < a.quantity :=
      not_lt.mpr (hle a (List.mem_cons_self a t))
    have ht := ih (fun i hi => hprod i (List.mem_cons_of_mem a hi))
      (fun i hi => hle i (List.mem_cons_of_mem a hi))
    simp [validateItems, hp, hnot, ht]

/-! Claim C2: validation completes before mutation; a failure aborts whole. -/

/-- C2: when any requested item exceeds the combined seller-plus-distributor
stock, create_order returns an error and the committed store is exactly the
initial one: no inventory record changes and no orders or order_items rows
appear. -/
theorem c2_failed_validation_aborts (st : Store) (products : List Product)
    (assigns : List DistributorSeller) (uid did : Nat) (cn ce : String)
    (items : List OrderItemReq) (onum : String) (oid : Nat)
    (ha : assigns.find? (fun a => a.seller_id == uid) = some ⟨did, uid⟩)
    (hprod : ∀ i ∈ items, (products.find? (fun p => p.id == i.product_id)).isSome = true)
    (hfail : ∃ i ∈ items, totalStock st.inventory uid did i.product_id < i.quantity) :
    (∃ msg, create_order st.inventory products assigns uid cn ce items onum oid =
      Except.error msg) ∧
    runCreateOrder st products assigns uid cn ce items onum oid = (st, false) := by
  obtain ⟨msg, hmsg⟩ :=
    validateItems_error_of_insufficient st.inventory products uid did items hprod hfail
  have hco : create_order st.inventory products assigns uid cn ce items onum oid =
      Except.error msg := by
    unfold create_order
    simp only [ha]
    simp [hmsg]
  exact ⟨⟨msg, hco⟩, by simp [runCreateOrder, hco]⟩

theorem c2_failed_validation_aborts_witness :
    runCreateOrder ⟨[⟨1, 4, OwnerType.seller, 1⟩], [], []⟩ [⟨1, "B"⟩] [⟨2, 4⟩] 4
      "c" "e" [⟨1, 5, 2⟩] "n" 7 = (⟨[⟨1, 4, OwnerType.seller, 1⟩], [], []⟩, false) :=
  (c2_failed_validation_aborts ⟨[⟨1, 4, OwnerType.seller, 1⟩], [], []⟩ [⟨1, "B"⟩]
    [⟨2, 4⟩] 4 2 "c" "e" [⟨1, 5, 2⟩] "n" 7 (by decide) (by decide)
    ⟨⟨1, 5, 2⟩, by decide⟩).2

/-! Claim C6: nonpositive line items. -/

lemma deductItem_id_of_nonpos (s : List InventoryRecord) (uid did : Nat)
    (i : OrderItemReq) (hq : i.quantity ≤ 0) :
    deductItem s uid did i = s := by
  have hmin : min i.quantity (match s.find? (fun r =>
      r.product_id == i.product_id && r.owner_id == uid) with
      | some r => r.quantity | none => 0) ≤ 0 :=
    le_trans (min_le_left _ _) hq
  simp only [deductItem]
  rw [if_neg (not_lt.mpr hmin), if_neg (not_lt.mpr hmin), if_neg (not_lt.mpr hq)]

lemma foldl_deduct_id_of_nonpos (uid did : Nat) :
    ∀ (items : List OrderItemReq) (s : List InventoryRecord),
      (∀ i ∈ items, i.quantity ≤ 0) →
      items.foldl (fun t i => deductItem t uid did i) s = s := by
  intro items
  induction items with
  | nil => intro s _; rfl
  | cons a t ih =>
    intro s h
    rw [List.foldl_cons, deductItem_id_of_nonpos s uid did a (h a (List.mem_cons_self a t))]
    exact ih s (fun i hi => h i (List.mem_cons_of_mem a hi))

/-- C6 counterexample: an order whose only item has quantity -2 is not
rejected and the item is not excluded: create_order succeeds, generates the
order row (so an order number is produced) with the nonpositive item counted
in total_amount (-2 times 10 gives -20), persists the order_items row with
quantity -2, and deducts nothing. -/
theorem c6_counterexample :
    create_order [⟨1, 4, OwnerType.seller, 5⟩] [⟨1, "B"⟩] [⟨2, 4⟩] 4 "c" "e"
      [⟨1, -2, 10⟩] "n" 9 =
    Except.ok ⟨[⟨1, 4, OwnerType.seller, 5⟩],
      ⟨9, "n", 4, 2, "c", "e", -20, "pending", none⟩, [⟨9, 1, -2, 10⟩]⟩ := by
  norm_num [create_order, validateItems, totalStock, deductItem, totalAmount,
    upsertInventory]

/-- C6 amended: line items with nonpositive quantity are not excluded from
persistence or from the total, and an all-nonpositive order is not rejected:
given an assigned distributor, existing products and nonnegative stock,
create_order succeeds, leaves the inventory untouched, stores every posted
item (nonpositive quantities included) as an order_items row, and counts
every item in total_amount. -/
theorem c6_nonpositive_items_kept (inv : List InventoryRecord)
    (products : List Product) (assigns : List DistributorSeller) (uid did : Nat)
    (cn ce : String) (items : List OrderItemReq) (onum : String) (oid : Nat)
    (ha : assigns.find? (fun a => a.seller_id == uid) = some ⟨did, uid⟩)
    (hprod : ∀ i ∈ items, (products.find? (fun p => p.id == i.product_id)).isSome = true)
    (hq : ∀ i ∈ items, i.quantity ≤ 0)
    (hpos : ∀ r ∈ inv, 0 ≤ r.quantity) :
    create_order inv products assigns uid cn ce items onum oid =
      Except.ok
        { inventory := inv,
          order :=
            { id := oid, order_number := onum, seller_id := uid,
              distributor_id := did, customer_name := cn, customer_email := ce,
              total_amount := totalAmount items, status := "pending",
              confirmed_by_id := none },
          order_items := items.map (fun i =>
            { order_id := oid, product_id := i.product_id,
              quantity := i.quantity, unit_price := i.price }) } := by
  have hval := validateItems_ok_of_le inv products uid did items hprod
    (fun i hi => le_trans (hq i hi) (totalStock_nonneg inv uid did i.product_id hpos))
  unfold create_order
  simp only [ha, hval]
  rw [foldl_deduct_id_of_nonpos uid did items inv hq]

theorem c6_nonpositive_items_kept_witness :
    create_order [⟨1, 4, OwnerType.seller, 2⟩] [⟨1, "B"⟩] [⟨2, 4⟩] 4 "c" "e"
      [⟨1, 0, 3⟩] "n" 7 =
    Except.ok ⟨[⟨1, 4, OwnerType.seller, 2⟩],
      ⟨7, "n", 4, 2, "c", "e", totalAmount [⟨1, 0, 3⟩], "pending", none⟩,
      [⟨7, 1, 0, 3⟩]⟩ :=
  c6_nonpositive_items_kept [⟨1, 4, OwnerType.seller, 2⟩] [⟨1, "B"⟩] [⟨2, 4⟩] 4 2
    "c" "e" [⟨1, 0, 3⟩] "n" 7 (by decide) (by decide) (by decide) (by decide)

/-! Claim C3: deduct from the seller first, remainder from the distributor. -/

/-- C3: for a one-item order over a seller record holding s and the assigned
distributor record holding d, with 0 < q and q within the combined stock,
create_order deducts min(q, s) from the seller record and exactly the
remainder q - min(q, s) from the distributor record, and persists a single
order_items row carrying the full quantity q.  Instantiating s = 3, d = 10,
q = 5 gives the post-state seller 0, distributor 8, one row of quantity 5. -/
theorem c3_seller_first_split (s d q : Int) (pr : Rat) (cn ce onum : String)
    (oid : Nat) (hs : 0 ≤ s) (hd : 0 ≤ d) (hq : 0 < q) (havail : q ≤ s + d) :
    create_order [⟨1, 4, OwnerType.seller, s⟩, ⟨1, 2, OwnerType.distributor, d⟩]
        [⟨1, "Blanket"⟩] [⟨2, 4⟩] 4 cn ce [⟨1, q, pr⟩] onum oid =
      Except.ok
        { inventory := [⟨1, 4, OwnerType.seller, s - min q s⟩,
            ⟨1, 2, OwnerType.distributor, d - (q - min q s)⟩],
          order :=
            { id := oid, order_number := onum, seller_id := 4,
              distributor_id := 2, customer_name := cn, customer_email := ce,
              total_amount := totalAmount [⟨1, q, pr⟩], status := "pending",
              confirmed_by_id := none },
          order_items := [⟨oid, 1, q, pr⟩] } := by
  have hassign : List.find? (fun a => a.seller_id == (4 : Nat))
      [(⟨2, 4⟩ : DistributorSeller)] = some ⟨2, 4⟩ := by decide
  have hstock : totalStock [⟨1, 4, OwnerType.seller, s⟩,
      ⟨1, 2, OwnerType.distributor, d⟩] 4 2 1 = s + d := by
    simp [totalStock]
  have hval : validateItems [⟨1, 4, OwnerType.seller, s⟩,
      ⟨1, 2, OwnerType.distributor, d⟩] [⟨1, "Blanket"⟩] 4 2 [⟨1, q, pr⟩] =
      .ok () := by
    simp [validateItems, hstock, not_lt.mpr havail]
  have hded : deductItem [⟨1, 4, OwnerType.seller, s⟩,
      ⟨1, 2, OwnerType.distributor, d⟩] 4 2 ⟨1, q, pr⟩ =
      [⟨1, 4, OwnerType.seller, s - min q s⟩,
       ⟨1, 2, OwnerType.distributor, d - (q - min q s)⟩] := by
    by_cases h1 : min q s > 0
    · by_cases h2 : q - min q s > 0
      · simp [deductItem, h1, h2]
      · simp only [deductItem, List.find?_cons]
        simp [h1, h2]
        all_goals omega
    · simp only [deductItem, List.find?_cons]
      simp [h1, hq]
      all_goals omega
  unfold create_order
  simp only [hassign, hval]
  simp only [List.foldl_cons, List.foldl_nil, hded, List.map_cons, List.map_nil]

theorem c3_seller_first_split_witness :
    create_order [⟨1, 4, OwnerType.seller, 3⟩, ⟨1, 2, OwnerType.distributor, 10⟩]
        [⟨1, "Blanket"⟩] [⟨2, 4⟩] 4 "John" "j" [⟨1, 5, 2⟩] "ORD" 7 =
      Except.ok
        { inventory := [⟨1, 4, OwnerType.seller, 3 - min 5 3⟩,
            ⟨1, 2, OwnerType.distributor, 10 - (5 - min 5 3)⟩],
          order :=
            { id := 7, order_number := "ORD", seller_id := 4,
              distributor_id := 2, customer_name := "John", customer_email := "j",
              total_amount := totalAmount [⟨1, 5, 2⟩], status := "pending",
              confirmed_by_id := none },
          order_items := [⟨7, 1, 5, 2⟩] } :=
  c3_seller_first_split 3 10 5 2 "John" "j" "ORD" 7 (by decide) (by decide)
    (by decide) (by decide)

/-! Conservation lemmas for the ledger transfers. -/

lemma productTotal_cons (x : InventoryRecord) (l : List InventoryRecord) (pid : Nat) :
    productTotal (x :: l) pid =
      (if x.product_id == pid then x.quantity else 0) + productTotal l pid := by
  by_cases h : (x.product_id == pid) = true <;>
    simp [productTotal, List.filter_cons, h]

lemma countP_ext {α : Type} (l : List α) (p q : α → Bool) (h : ∀ a ∈ l, p a = q a) :
    l.countP p = l.countP q := by
  induction l with
  | nil => rfl
  | cons a t ih =>
    rw [List.countP_cons, List.countP_cons, h a (List.mem_cons_self a t),
      ih (fun b hb => h b (List.mem_cons_of_mem a hb))]

lemma productTotal_map_sub (inv : List InventoryRecord) (pid : Nat)
    (c : InventoryRecord → Bool) (q : Int) :
    productTotal (inv.map (fun r =>
        if c r then { r with quantity := r.quantity - q } else r)) pid
      = productTotal inv pid - q * inv.countP (fun r => r.product_id == pid && c r) := by
  induction inv with
  | nil => simp [productTotal]
  | cons a t ih =>
    rw [List.map_cons, productTotal_cons, productTotal_cons, List.countP_cons, ih]
    by_cases hc : c a = true <;> by_cases hp : (a.product_id == pid) = true <;>
      simp [hc, hp] <;> push_cast <;> ring

lemma productTotal_map_add (inv : List InventoryRecord) (pid : Nat)
    (c : InventoryRecord → Bool) (q : Int) :
    productTotal (inv.map (fun r =>
        if c r then { r with quantity := r.quantity + q } else r)) pid
      = productTotal inv pid + q * inv.countP (fun r => r.product_id == pid && c r) := by
  induction inv with
  | nil => simp [productTotal]
  | cons a t ih =>
    rw [List.map_cons, productTotal_cons, productTotal_cons, List.countP_cons, ih]
    by_cases hc : c a = true <;> by_cases hp : (a.product_id == pid) = true <;>
      simp [hc, hp] <;> push_cast <;> ring

lemma productTotal_append_one (l : List InventoryRecord) (r : InventoryRecord)
    (pid : Nat) (h : (r.product_id == pid) = true) :
    productTotal (l ++ [r]) pid = productTotal l pid + r.quantity := by
  simp [productTotal, List.filter_append, List.filter_cons, h]

lemma keyPairs_map_eq (inv : List InventoryRecord)
    (g : InventoryRecord → InventoryRecord)
    (h1 : ∀ r, (g r).product_id = r.product_id)
    (h2 : ∀ r, (g r).owner_id = r.owner_id) :
    (inv.map g).map (fun r => (r.product_id, r.owner_id)) =
      inv.map (fun r => (r.product_id, r.owner_id)) := by
  rw [List.map_map]
  exact List.map_congr_left (fun a _ => by simp [Function.comp, h1 a, h2 a])

lemma productTotal_upsert (inv : List InventoryRecord) (pid oid : Nat)
    (ot : OwnerType) (q : Int)
    (hnd : (inv.map (fun r => (r.product_id, r.owner_id))).Nodup) :
    productTotal (upsertInventory inv pid oid ot q) pid = productTotal inv pid + q := by
  unfold upsertInventory
  by_cases hany : inv.any (fun r => r.product_id == pid && r.owner_id == oid &&
      r.owner_type == ot) = true
  · rw [if_pos hany, productTotal_map_add]
    obtain ⟨a, ha, hpa⟩ := List.any_eq_true.mp hany
    have hcnt : inv.countP (fun r => r.product_id == pid &&
        (r.product_id == pid && r.owner_id == oid && r.owner_type == ot)) = 1 := by
      rw [countP_ext inv _
        (fun r => r.product_id == pid && r.owner_id == oid && r.owner_type == ot)
        (fun b _ => by by_cases hb : (b.product_id == pid) = true <;> simp [hb])]
      exact countP_eq_one_of_key inv (fun r => (r.product_id, r.owner_id)) _ hnd
        (fun x y hx hy => by
          simp only [Bool.and_eq_true, beq_iff_eq] at hx hy
          simp [hx.1.1, hx.1.2, hy.1.1, hy.1.2])
        ⟨a, ha, hpa⟩
    rw [hcnt]
    push_cast
    ring
  · rw [if_neg hany, productTotal_append_one _ _ _ (by simp)]

/-! Claim C1: quantity conservation across transfers. -/

/-- C1 counterexample: when one owner holds two inventory records of the same
product under different owner roles, a successful order_from_manufacturer
does not conserve the product total, because the decrement UPDATE filters
only by product and owner and so hits both records: total 505 becomes 495. -/
theorem c1_counterexample :
    (order_from_manufacturer [⟨1, 1, OwnerType.manufacturer, 500⟩,
        ⟨1, 1, OwnerType.distributor, 5⟩] 1 10 2).toOption =
      some [⟨1, 1, OwnerType.manufacturer, 490⟩, ⟨1, 1, OwnerType.distributor, -5⟩,
        ⟨1, 2, OwnerType.distributor, 10⟩] ∧
    productTotal [⟨1, 1, OwnerType.manufacturer, 500⟩,
      ⟨1, 1, OwnerType.distributor, 5⟩] 1 = 505 ∧
    productTotal [⟨1, 1, OwnerType.manufacturer, 490⟩, ⟨1, 1, OwnerType.distributor, -5⟩,
      ⟨1, 2, OwnerType.distributor, 10⟩] 1 = 495 := by
  refine ⟨?_, ?_, ?_⟩ <;> decide

/-- C1 amended: for every successful transfer, with any quantity, the product
total is conserved provided each owner holds at most one inventory record of
the product, i.e. the (product_id, owner_id) pairs are pairwise distinct
(which every state reached through consistently-typed owners satisfies). -/
theorem c1_conservation_unique_keys (inv : List InventoryRecord) (pid : Nat)
    (q : Int) (uid sid : Nat) (assigns : List DistributorSeller)
    (hnd : (inv.map (fun r => (r.product_id, r.owner_id))).Nodup) :
    (∀ inv2, order_from_manufacturer inv pid q uid = .ok inv2 →
      productTotal inv2 pid = productTotal inv pid) ∧
    (∀ inv2, order_from_distributor assigns inv sid pid q = .ok inv2 →
      productTotal inv2 pid = productTotal inv pid) := by
  constructor
  · intro inv2 hok
    unfold order_from_manufacturer at hok
    split at hok
    · cases hok
    · next mfg hfind =>
      split at hok
      · cases hok
      · injection hok with hok
        subst hok
        have hmem := List.mem_of_find?_eq_some hfind
        have hp := List.find?_some hfind
        simp only [Bool.and_eq_true, beq_iff_eq] at hp
        have hnd2 : ((inv.map (fun r =>
            if r.product_id == pid && r.owner_id == mfg.owner_id then
              { r with quantity := r.quantity - q }
            else r)).map (fun r => (r.product_id, r.owner_id))).Nodup := by
          rw [keyPairs_map_eq _ _
            (fun r => by by_cases hc : (r.product_id == pid && r.owner_id == mfg.owner_id) = true <;> simp [hc])
            (fun r => by by_cases hc : (r.product_id == pid && r.owner_id == mfg.owner_id) = true <;> simp [hc])]
          exact hnd
        rw [productTotal_upsert _ _ _ _ _ hnd2, productTotal_map_sub]
        have hcnt : inv.countP (fun r => r.product_id == pid &&
            (r.product_id == pid && r.owner_id == mfg.owner_id)) = 1 := by
          rw [countP_ext inv _ (fun r => r.product_id == pid && r.owner_id == mfg.owner_id)
            (fun b _ => by by_cases hb : (b.product_id == pid) = true <;> simp [hb])]
          exact countP_eq_one_of_key inv (fun r => (r.product_id, r.owner_id)) _ hnd
            (fun x y hx hy => by
              simp only [Bool.and_eq_true, beq_iff_eq] at hx hy
              simp [hx.1, hx.2, hy.1, hy.2])
            ⟨mfg, hmem, by simp [beq_iff_eq, hp.1]⟩
        rw [hcnt]
        push_cast
        ring
  · intro inv2 hok
    unfold order_from_distributor at hok
    split at hok
    · cases hok
    · next a hfa =>
      split at hok
      · cases hok
      · next d hfind =>
        split at hok
        · cases hok
        · injection hok with hok
          subst hok
          have hmem := List.mem_of_find?_eq_some hfind
          have hp := List.find?_some hfind
          simp only [Bool.and_eq_true, beq_iff_eq] at hp
          have hnd2 : ((inv.map (fun r =>
              if r.product_id == pid && r.owner_id == a.distributor_id then
                { r with quantity := r.quantity - q }
              else r)).map (fun r => (r.product_id, r.owner_id))).Nodup := by
            rw [keyPairs_map_eq _ _
              (fun r => by by_cases hc : (r.product_id == pid && r.owner_id == a.distributor_id) = true <;> simp [hc])
              (fun r => by by_cases hc : (r.product_id == pid && r.owner_id == a.distributor_id) = true <;> simp [hc])]
            exact hnd
          rw [productTotal_upsert _ _ _ _ _ hnd2, productTotal_map_sub]
          have hcnt : inv.countP (fun r => r.product_id == pid &&
              (r.product_id == pid && r.owner_id == a.distributor_id)) = 1 := by
            rw [countP_ext inv _ (fun r => r.product_id == pid && r.owner_id == a.distributor_id)
              (fun b _ => by by_cases hb : (b.product_id == pid) = true <;> simp [hb])]
            exact countP_eq_one_of_key inv (fun r => (r.product_id, r.owner_id)) _ hnd
              (fun x y hx hy => by
                simp only [Bool.and_eq_true, beq_iff_eq] at hx hy
                simp [hx.1, hx.2, hy.1, hy.2])
              ⟨d, hmem, by simp [beq_iff_eq, hp.1.1, hp.1.2]⟩
          rw [hcnt]
          push_cast
          ring

theorem c1_conservation_unique_keys_witness :
    productTotal [⟨1, 1, OwnerType.manufacturer, 95⟩, ⟨1, 2, OwnerType.distributor, 5⟩] 1 =
      productTotal [⟨1, 1, OwnerType.manufacturer, 100⟩] 1 :=
  (c1_conservation_unique_keys [⟨1, 1, OwnerType.manufacturer, 100⟩] 1 5 2 0 []
    (by decide)).1
    [⟨1, 1, OwnerType.manufacturer, 95⟩, ⟨1, 2, OwnerType.distributor, 5⟩]
    (by rfl)

/-! Lemmas for the deduction pass of create_order. -/

lemma validateItems_ok_stock (inv : List InventoryRecord) (products : List Product)
    (uid did : Nat) :
    ∀ items : List OrderItemReq, validateItems inv products uid did items = .ok () →
      ∀ i ∈ items, i.quantity ≤ totalStock inv uid did i.product_id := by
  intro items
  induction items with
  | nil =>
    intro _ i hi
    cases hi
  | cons a t ih =>
    intro hok i hi
    simp only [validateItems] at hok
    split at hok
    · cases hok
    · split at hok
      · cases hok
      · next hfail =>
        rcases List.mem_cons.mp hi with h | h
        · subst h
          exact not_lt.mp hfail
        · exact ih hok i h

lemma tripleMap_map_adjust (l : List InventoryRecord) (c : InventoryRecord → Bool)
    (q : Int) :
    (l.map (fun r => if c r then { r with quantity := r.quantity - q } else r)).map
        (fun r => (r.product_id, r.owner_id, r.owner_type)) =
      l.map (fun r => (r.product_id, r.owner_id, r.owner_type)) := by
  rw [List.map_map]
  exact List.map_congr_left (fun a _ => by
    by_cases hc : c a = true <;> simp [Function.comp, hc])

lemma deductItem_tripleMap (s : List InventoryRecord) (uid did : Nat)
    (i : OrderItemReq) :
    (deductItem s uid did i).map (fun r => (r.product_id, r.owner_id, r.owner_type)) =
      s.map (fun r => (r.product_id, r.owner_id, r.owner_type)) := by
  simp only [deductItem]
  set S := (match s.find? (fun r => r.product_id == i.product_id &&
      r.owner_id == uid) with
    | some r => r.quantity
    | none => 0) with hSdef
  by_cases h1 : min i.quantity S > 0
  · simp only [if_pos h1]
    by_cases h2 : i.quantity - min i.quantity S > 0
    · simp only [if_pos h2]
      rw [tripleMap_map_adjust, tripleMap_map_adjust]
    · simp only [if_neg h2]
      rw [tripleMap_map_adjust]
  · simp only [if_neg h1]
    by_cases h3 : i.quantity > 0
    · simp only [if_pos h3]
      rw [tripleMap_map_adjust]
    · simp only [if_neg h3]

lemma keys_of_shape {s s2 : List InventoryRecord}
    (hsh : s2.map (fun r => (r.product_id, r.owner_id, r.owner_type)) =
      s.map (fun r => (r.product_id, r.owner_id, r.owner_type))) :
    s2.map (fun r => (r.product_id, r.owner_id)) =
      s.map (fun r => (r.product_id, r.owner_id)) := by
  have hc : (fun r : InventoryRecord => (r.product_id, r.owner_id)) =
      (fun t : Nat × Nat × OwnerType => (t.1, t.2.1)) ∘
        (fun r => (r.product_id, r.owner_id, r.owner_type)) := rfl
  rw [hc, List.comp_map, List.comp_map, hsh]

lemma mem_shape {s s2 : List InventoryRecord}
    (hsh : s2.map (fun r => (r.product_id, r.owner_id, r.owner_type)) =
      s.map (fun r => (r.product_id, r.owner_id, r.owner_type))) :
    ∀ r2 ∈ s2, ∃ r ∈ s, r.product_id = r2.product_id ∧ r.owner_id = r2.owner_id ∧
      r.owner_type = r2.owner_type := by
  intro r2 h2
  have hmem : (r2.product_id, r2.owner_id, r2.owner_type) ∈
      s.map (fun r => (r.product_id, r.owner_id, r.owner_type)) := by
    rw [← hsh]
    exact List.mem_map_of_mem _ h2
  rcases List.mem_map.mp hmem with ⟨r, hr, heq⟩
  simp only [Prod.mk.injEq] at heq
  exact ⟨r, hr, heq.1, heq.2.1, heq.2.2⟩

lemma totalStock_cons (x : InventoryRecord) (l : List InventoryRecord)
    (uid did p : Nat) :
    totalStock (x :: l) uid did p =
      (if x.product_id == p &&
          ((x.owner_id == uid && x.owner_type == OwnerType.seller) ||
           (x.owner_id == did && x.owner_type == OwnerType.distributor)) then
        x.quantity else 0) + totalStock l uid did p := by
  by_cases h : (x.product_id == p &&
      ((x.owner_id == uid && x.owner_type == OwnerType.seller) ||
       (x.owner_id == did && x.owner_type == OwnerType.distributor))) = true <;>
    simp [totalStock, List.filter_cons, h]

lemma qtyKey_cons (x : InventoryRecord) (l : List InventoryRecord) (p o : Nat) :
    qtyKey (x :: l) p o =
      if x.product_id == p && x.owner_id == o then x.quantity else qtyKey l p o := by
  unfold qtyKey
  rw [List.find?_cons]
  by_cases h : (x.product_id == p && x.owner_id == o) = true
  · simp [h]
  · simp [h]

lemma qtyKey_eq_zero_of_not_mem (l : List InventoryRecord) (p o : Nat)
    (h : (p, o) ∉ l.map (fun r => (r.product_id, r.owner_id))) :
    qtyKey l p o = 0 := by
  unfold qtyKey
  cases hf : l.find? (fun r => r.product_id == p && r.owner_id == o) with
  | none => rfl
  | some r =>
    have hm := List.mem_of_find?_eq_some hf
    have hp := List.find?_some hf
    simp only [Bool.and_eq_true, beq_iff_eq] at hp
    exfalso
    apply h
    have hmem : (r.product_id, r.owner_id) ∈
        l.map (fun r => (r.product_id, r.owner_id)) := List.mem_map_of_mem _ hm
    rw [hp.1, hp.2] at hmem
    exact hmem

lemma qtyKey_eq_of_mem (s : List InventoryRecord) (p o : Nat) (r : InventoryRecord)
    (hkeys : (s.map (fun x => (x.product_id, x.owner_id))).Nodup)
    (hr : r ∈ s) (hp : r.product_id = p) (ho : r.owner_id = o) :
    qtyKey s p o = r.quantity := by
  unfold qtyKey
  cases hf : s.find? (fun x => x.product_id == p && x.owner_id == o) with
  | none =>
    rw [List.find?_eq_none] at hf
    exact absurd (by simp [beq_iff_eq, hp, ho]) (hf r hr)
  | some r0 =>
    have heq : r = r0 := find?_unique_of_key hkeys
      (fun x y hx hy => by
        simp only [Bool.and_eq_true, beq_iff_eq] at hx hy
        simp [hx.1, hx.2, hy.1, hy.2])
      hf hr (by simp [beq_iff_eq, hp, ho])
    rw [heq]

lemma qtyKey_nonneg (s : List InventoryRecord) (p o : Nat)
    (hpos : ∀ r ∈ s, 0 ≤ r.quantity) : 0 ≤ qtyKey s p o := by
  unfold qtyKey
  cases hf : s.find? (fun r => r.product_id == p && r.owner_id == o) with
  | none => exact le_refl 0
  | some r => exact hpos r (List.mem_of_find?_eq_some hf)

lemma totalStock_eq_qtyKey (uid did p : Nat) (hne : uid ≠ did) :
    ∀ s : List InventoryRecord,
      (∀ r ∈ s, r.owner_id = uid → r.owner_type = OwnerType.seller) →
      (∀ r ∈ s, r.owner_id = did → r.owner_type = OwnerType.distributor) →
      (s.map (fun r => (r.product_id, r.owner_id))).Nodup →
      totalStock s uid did p = qtyKey s p uid + qtyKey s p did := by
  intro s
  induction s with
  | nil =>
    intro _ _ _
    simp [totalStock, qtyKey]
  | cons a t ih =>
    intro hsell hdist hkeys
    rw [List.map_cons, List.nodup_cons] at hkeys
    have ihs := ih (fun r hr ho => hsell r (List.mem_cons_of_mem a hr) ho)
      (fun r hr ho => hdist r (List.mem_cons_of_mem a hr) ho) hkeys.2
    rw [totalStock_cons, qtyKey_cons, qtyKey_cons, ihs]
    by_cases hpid : a.product_id = p
    · by_cases huid : a.owner_id = uid
      · have htype := hsell a (List.mem_cons_self a t) huid
        have h0 : qtyKey t p uid = 0 := by
          apply qtyKey_eq_zero_of_not_mem
          rw [← hpid, ← huid]
          exact hkeys.1
        rw [h0]
        simp [beq_iff_eq, hpid, huid, htype, hne]
      · by_cases hdid2 : a.owner_id = did
        · have htype := hdist a (List.mem_cons_self a t) hdid2
          have h0 : qtyKey t p did = 0 := by
            apply qtyKey_eq_zero_of_not_mem
            rw [← hpid, ← hdid2]
            exact hkeys.1
          rw [h0]
          simp [beq_iff_eq, hpid, huid, hdid2, htype, Ne.symm hne]
          omega
        · simp [beq_iff_eq, hpid, huid, hdid2]
    · simp [beq_iff_eq, hpid]

lemma totalStock_map_adjust_other (s : List InventoryRecord) (uid did p p0 : Nat)
    (hne : p ≠ p0) (c : InventoryRecord → Bool) (q : Int)
    (hc : ∀ r, c r = true → r.product_id = p0) :
    totalStock (s.map (fun r =>
        if c r then { r with quantity := r.quantity - q } else r)) uid did p =
      totalStock s uid did p := by
  unfold totalStock
  rw [filter_map_eq_of s _ _
    (fun a => by by_cases hca : c a = true <;> simp [hca])
    (fun a hPa => by
      by_cases hca : c a = true
      · exfalso
        have h1 : a.product_id = p0 := hc a hca
        simp only [Bool.and_eq_true, beq_iff_eq] at hPa
        omega
      · simp [hca])]

lemma deductItem_totalStock_other (s : List InventoryRecord) (uid did : Nat)
    (i : OrderItemReq) (p : Nat) (hp : p ≠ i.product_id) :
    totalStock (deductItem s uid did i) uid did p = totalStock s uid did p := by
  have hcu : ∀ r : InventoryRecord,
      (r.product_id == i.product_id && r.owner_id == uid) = true →
      r.product_id = i.product_id := fun r hr => by
    simp only [Bool.and_eq_true, beq_iff_eq] at hr
    exact hr.1
  have hcd : ∀ r : InventoryRecord,
      (r.product_id == i.product_id && r.owner_id == did) = true →
      r.product_id = i.product_id := fun r hr => by
    simp only [Bool.and_eq_true, beq_iff_eq] at hr
    exact hr.1
  simp only [deductItem]
  set S := (match s.find? (fun r => r.product_id == i.product_id &&
      r.owner_id == uid) with
    | some r => r.quantity
    | none => 0) with hSdef
  by_cases h1 : min i.quantity S > 0
  · simp only [if_pos h1]
    by_cases h2 : i.quantity - min i.quantity S > 0
    · simp only [if_pos h2]
      rw [totalStock_map_adjust_other _ uid did p i.product_id hp _ _ hcd,
        totalStock_map_adjust_other _ uid did p i.product_id hp _ _ hcu]
    · simp only [if_neg h2]
      rw [totalStock_map_adjust_other _ uid did p i.product_id hp _ _ hcu]
  · simp only [if_neg h1]
    by_cases h3 : i.quantity > 0
    · simp only [if_pos h3]
      rw [totalStock_map_adjust_other _ uid did p i.product_id hp _ _ hcd]
    · simp only [if_neg h3]

lemma deductItem_nonneg (s : List InventoryRecord) (uid did : Nat) (i : OrderItemReq)
    (hne : uid ≠ did)
    (hsell : ∀ r ∈ s, r.owner_id = uid → r.owner_type = OwnerType.seller)
    (hdist : ∀ r ∈ s, r.owner_id = did → r.owner_type = OwnerType.distributor)
    (hkeys : (s.map (fun r => (r.product_id, r.owner_id))).Nodup)
    (hpos : ∀ r ∈ s, 0 ≤ r.quantity)
    (hq : 0 < i.quantity)
    (hstock : i.quantity ≤ totalStock s uid did i.product_id) :
    ∀ r2 ∈ deductItem s uid did i, 0 ≤ r2.quantity := by
  have htot := totalStock_eq_qtyKey uid did i.product_id hne s hsell hdist hkeys
  rw [htot] at hstock
  intro r2 h2
  simp only [deductItem] at h2
  have hSdef : (match s.find? (fun r => r.product_id == i.product_id &&
      r.owner_id == uid) with
    | some r => r.quantity
    | none => 0) = qtyKey s i.product_id uid := rfl
  rw [hSdef] at h2
  set S := qtyKey s i.product_id uid with hS
  set D := qtyKey s i.product_id did with hD
  have hSnn : 0 ≤ S := qtyKey_nonneg s _ _ hpos
  have hDnn : 0 ≤ D := qtyKey_nonneg s _ _ hpos
  have hseller_case : ∀ r ∈ s,
      (r.product_id == i.product_id && r.owner_id == uid) = true →
      r.quantity = S := by
    intro r hr hc
    simp only [Bool.and_eq_true, beq_iff_eq] at hc
    rw [hS, qtyKey_eq_of_mem s i.product_id uid r hkeys hr hc.1 hc.2]
  have hdist_case : ∀ r ∈ s,
      (r.product_id == i.product_id && r.owner_id == did) = true →
      r.quantity = D := by
    intro r hr hc
    simp only [Bool.and_eq_true, beq_iff_eq] at hc
    rw [hD, qtyKey_eq_of_mem s i.product_id did r hkeys hr hc.1 hc.2]
  by_cases h1 : min i.quantity S > 0
  · simp only [if_pos h1] at h2
    by_cases ha2 : i.quantity - min i.quantity S > 0
    · simp only [if_pos ha2] at h2
      rcases List.mem_map.mp h2 with ⟨r1, hr1, rfl⟩
      rcases List.mem_map.mp hr1 with ⟨r, hr, rfl⟩
      by_cases hc1 : (r.product_id == i.product_id && r.owner_id == uid) = true
      · have hrS := hseller_case r hr hc1
        have hown : r.owner_id = uid := by
          simp only [Bool.and_eq_true, beq_iff_eq] at hc1
          exact hc1.2
        simp only [hc1, if_true]
        simp [beq_iff_eq, hown, hne]
        omega
      · by_cases hc2 : (r.product_id == i.product_id && r.owner_id == did) = true
        · have hrD := hdist_case r hr hc2
          simp [hc1, hc2]
          omega
        · simp [hc1, hc2]
          exact hpos r hr
    · simp only [if_neg ha2] at h2
      rcases List.mem_map.mp h2 with ⟨r, hr, rfl⟩
      by_cases hc1 : (r.product_id == i.product_id && r.owner_id == uid) = true
      · have hrS := hseller_case r hr hc1
        simp [hc1]
        omega
      · simp [hc1]
        exact hpos r hr
  · simp only [if_neg h1, if_pos hq] at h2
    rcases List.mem_map.mp h2 with ⟨r, hr, rfl⟩
    by_cases hc2 : (r.product_id == i.product_id && r.owner_id == did) = true
    · have hrD := hdist_case r hr hc2
      simp [hc2]
      omega
    · simp [hc2]
      exact hpos r hr

lemma foldl_deduct_nonneg (uid did : Nat) (hne : uid ≠ did) :
    ∀ (items : List OrderItemReq) (s : List InventoryRecord),
      (∀ r ∈ s, r.owner_id = uid → r.owner_type = OwnerType.seller) →
      (∀ r ∈ s, r.owner_id = did → r.owner_type = OwnerType.distributor) →
      (s.map (fun r => (r.product_id, r.owner_id))).Nodup →
      (∀ r ∈ s, 0 ≤ r.quantity) →
      (items.map (fun i => i.product_id)).Nodup →
      (∀ i ∈ items, 0 < i.quantity) →
      (∀ i ∈ items, i.quantity ≤ totalStock s uid did i.product_id) →
      ∀ r ∈ items.foldl (fun t i => deductItem t uid did i) s, 0 ≤ r.quantity := by
  intro items
  induction items with
  | nil =>
    intro s _ _ _ hpos _ _ _ r hr
    exact hpos r hr
  | cons a t ih =>
    intro s hsell hdist hkeys hpos hitems hqpos hstock
    rw [List.foldl_cons]
    have hsh := deductItem_tripleMap s uid did a
    have hkeys2 : ((deductItem s uid did a).map
        (fun r => (r.product_id, r.owner_id))).Nodup := by
      rw [keys_of_shape hsh]
      exact hkeys
    have hmem2 := mem_shape hsh
    have hsell2 : ∀ r ∈ deductItem s uid did a, r.owner_id = uid →
        r.owner_type = OwnerType.seller := by
      intro r2 h2 ho
      rcases hmem2 r2 h2 with ⟨r, hr, _, hoid, htype⟩
      rw [← htype]
      exact hsell r hr (by rw [hoid, ho])
    have hdist2 : ∀ r ∈ deductItem s uid did a, r.owner_id = did →
        r.owner_type = OwnerType.distributor := by
      intro r2 h2 ho
      rcases hmem2 r2 h2 with ⟨r, hr, _, hoid, htype⟩
      rw [← htype]
      exact hdist r hr (by rw [hoid, ho])
    have hpos2 : ∀ r ∈ deductItem s uid did a, 0 ≤ r.quantity :=
      deductItem_nonneg s uid did a hne hsell hdist hkeys hpos
        (hqpos a (List.mem_cons_self a t)) (hstock a (List.mem_cons_self a t))
    rw [List.map_cons, List.nodup_cons] at hitems
    have hstock2 : ∀ i ∈ t, i.quantity ≤
        totalStock (deductItem s uid did a) uid did i.product_id := by
      intro i hi
      have hne2 : i.product_id ≠ a.product_id := by
        intro hcontra
        apply hitems.1
        rw [← hcontra]
        exact List.mem_map_of_mem _ hi
      rw [deductItem_totalStock_other s uid did a i.product_id hne2]
      exact hstock i (List.mem_cons_of_mem a hi)
    exact ih (deductItem s uid did a) hsell2 hdist2 hkeys2 hpos2 hitems.2
      (fun i hi => hqpos i (List.mem_cons_of_mem a hi)) hstock2

/-! Claim C5: no operation drives inventory negative. -/

/-- C5 counterexample: an order that repeats the same product id passes the
validation pass twice against the same unmodified stock and then overdraws
it: with 10 units at the distributor and two items of 6 each, create_order
succeeds and leaves the distributor record at -2.  The distributor deduction
inside the loop is not preceded by any per-decrement validation. -/
theorem c5_counterexample :
    (create_order [⟨1, 2, OwnerType.distributor, 10⟩] [⟨1, "B"⟩] [⟨2, 4⟩] 4 "c" "e"
      [⟨1, 6, 1⟩, ⟨1, 6, 1⟩] "n" 9).toOption.map (fun res => res.inventory) =
      some [⟨1, 2, OwnerType.distributor, -2⟩] := by
  decide

/-- C5 amended: create_order never drives an inventory record below zero
provided each product id appears at most once in the item list (and the state
is well formed: seller and distributor ids are distinct, owners hold
consistent roles, at most one record per (product, owner) key, nonnegative
quantities, positive requested quantities).  The transfer endpoints guard
each of their decrements individually (claim C4), but inside create_order
nothing revalidates between the per-item deductions, so repeated product ids
break the guarantee as the counterexample shows. -/
theorem c5_no_negative_stock (inv : List InventoryRecord) (products : List Product)
    (assigns : List DistributorSeller) (uid did : Nat) (cn ce : String)
    (items : List OrderItemReq) (onum : String) (oid : Nat)
    (res : CreateOrderSuccess)
    (hne : uid ≠ did)
    (hsell : ∀ r ∈ inv, r.owner_id = uid → r.owner_type = OwnerType.seller)
    (hdist : ∀ r ∈ inv, r.owner_id = did → r.owner_type = OwnerType.distributor)
    (hkeys : (inv.map (fun r => (r.product_id, r.owner_id))).Nodup)
    (hpos : ∀ r ∈ inv, 0 ≤ r.quantity)
    (hitems : (items.map (fun i => i.product_id)).Nodup)
    (hqpos : ∀ i ∈ items, 0 < i.quantity)
    (ha : assigns.find? (fun a => a.seller_id == uid) = some ⟨did, uid⟩)
    (hok : create_order inv products assigns uid cn ce items onum oid = .ok res) :
    ∀ r ∈ res.inventory, 0 ≤ r.quantity := by
  unfold create_order at hok
  rw [ha] at hok
  simp only [] at hok
  split at hok
  · cases hok
  · next hval =>
    injection hok with hok
    subst hok
    have hbound := validateItems_ok_stock inv products uid did items hval
    exact foldl_deduct_nonneg uid did hne items inv hsell hdist hkeys hpos hitems
      hqpos hbound

theorem c5_no_negative_stock_witness :
    (0 : Int) ≤ (InventoryRecord.mk 1 2 OwnerType.distributor 8).quantity :=
  c5_no_negative_stock [⟨1, 4, OwnerType.seller, 3⟩, ⟨1, 2, OwnerType.distributor, 10⟩]
    [⟨1, "B"⟩] [⟨2, 4⟩] 4 2 "c" "e" [⟨1, 5, 2⟩] "n" 7
    { inventory := [⟨1, 4, OwnerType.seller, 0⟩, ⟨1, 2, OwnerType.distributor, 8⟩],
      order :=
        { id := 7, order_number := "n", seller_id := 4, distributor_id := 2,
          customer_name := "c", customer_email := "e",
          total_amount := totalAmount [⟨1, 5, 2⟩], status := "pending",
          confirmed_by_id := none },
      order_items := [⟨7, 1, 5, 2⟩] }
    (by decide) (by decide) (by decide) (by decide) (by decide) (by decide)
    (by decide) (by decide) (by rfl)
    ⟨1, 2, OwnerType.distributor, 8⟩ (by decide)

end CozyComfort
